import Mathlib

/-
Verification development for the Lucid AI dream-journal application.

The development shallowly embeds the parts of the TypeScript source that
the verified properties concern:

* the application data model (types.ts: AppState, DreamEntry);
* the local-storage persistence helpers (App.tsx: getSavedDreams,
  saveNewDream, saveDreams);
* the application event handlers (App.tsx: handleRecordingComplete,
  handleToggleFavorite, handleUpdateDream, sortedDreams);
* the remote-analysis wrapper (services/geminiService.ts:
  generateDreamAnalysis, modelled over the settled outcomes of the two
  parallel remote requests);
* the recording session manager (components/DreamRecorder.tsx:
  createBlob, stopRecording, the live-session onmessage handler),
  with the component state and resource references made explicit and
  stop modelled over an arbitrary failure profile for its release steps.

External collaborators (the generative-AI backend, JSON.parse, Date
parsing, the Web Audio platform) are parameters of the embedding; the
control flow around them is translated from the source.
-/

namespace LucidAI

/-- Application state machine, from types.ts AppState. -/
inductive AppState where
  | IDLE
  | RECORDING
  | ANALYZING
  | VIEWING
deriving DecidableEq, Repr

/-- A persisted dream record, from types.ts DreamEntry. The optional
isFavorite flag is modelled as a Bool, reading an absent flag as false
(JavaScript negates undefined and false identically). -/
structure DreamEntry where
  id : String
  date : String
  transcription : String
  imageUrl : String
  interpretation : String
  isFavorite : Bool
deriving DecidableEq, Repr

/-- Models the JavaScript String.prototype.trim platform function:
whitespace is removed from both ends of the string. -/
def jsTrim (s : String) : String :=
  ⟨((s.data.dropWhile Char.isWhitespace).reverse.dropWhile Char.isWhitespace).reverse⟩

/-- App.tsx getSavedDreams. The parameter parse stands for JSON.parse
specialised to DreamEntry lists, returning none when parsing throws;
stored is the raw blob held under the storage key (none when the key is
absent). The result pairs the history list that the function returns
with the blob left under the key afterwards (none after removeItem runs
in the catch branch). An empty stored string is falsy in JavaScript, so
the source returns the empty list without parsing it. -/
def getSavedDreams (parse : String → Option (List DreamEntry))
    (stored : Option String) : List DreamEntry × Option String :=
  match stored with
  | none => ([], none)
  | some s =>
    if s = "" then ([], some s)
    else
      match parse s with
      | some dreams => (dreams, some s)
      | none => ([], none)

/-- App.tsx saveNewDream, acting on the parsed content of the persisted
blob: the new entry is prepended to the stored list and the whole list
is rewritten. -/
def saveNewDream (newDream : DreamEntry) (store : List DreamEntry) :
    List DreamEntry :=
  newDream :: store

/-- The App component state that the verified handlers read and write.
The field store holds the parsed content of the persisted blob (the
list that saveDreams serialises wholesale). -/
structure AppModel where
  appState : AppState
  currentDream : Option DreamEntry
  allDreams : List DreamEntry
  error : Option String
  store : List DreamEntry
deriving DecidableEq, Repr

/-- services/geminiService.ts generateDreamAnalysis: Promise.all joins
the image request and the interpretation request; the settled outcome of
each remote call is an input. Any failure is re-thrown as one generic
error. -/
def generateDreamAnalysis (imageResult interpretationResult : Except String String) :
    Except String (String × String) :=
  match imageResult, interpretationResult with
  | .ok imageUrl, .ok interpretation => .ok (imageUrl, interpretation)
  | _, _ => .error "Failed to generate dream analysis."

/-- App.tsx handleRecordingComplete. newId and newDate stand for the
platform values Date.now().toString() and new Date().toISOString();
analysis is the settled outcome of generateDreamAnalysis. The returned
flag records whether the remote analysis was requested at all. -/
def handleRecordingComplete (transcription : String)
    (analysis : Except String (String × String))
    (newId newDate : String) (m : AppModel) : AppModel × Bool :=
  if jsTrim transcription = "" then
    ({ m with error := some "The recording was empty. Please try again.",
              appState := AppState.IDLE }, false)
  else
    match analysis with
    | .ok (imageUrl, interpretation) =>
      let newDream : DreamEntry :=
        { id := newId, date := newDate, transcription := transcription,
          imageUrl := imageUrl, interpretation := interpretation,
          isFavorite := false }
      ({ m with appState := AppState.VIEWING, error := none,
                store := saveNewDream newDream m.store,
                allDreams := newDream :: m.allDreams,
                currentDream := some newDream }, true)
    | .error _ =>
      ({ m with error := some "There was an error analyzing your dream. Please check your API key and try again.",
                appState := AppState.IDLE }, true)

/-- The per-entry update performed by App.tsx handleToggleFavorite: the
entry with the matching id has its favourite flag negated, every other
entry is returned unchanged. -/
def toggleEntry (dreamId : String) (d : DreamEntry) : DreamEntry :=
  if d.id = dreamId then { d with isFavorite := !d.isFavorite } else d

/-- App.tsx handleToggleFavorite: maps toggleEntry over the in-memory
list and rewrites the persisted store wholesale with the result. -/
def handleToggleFavorite (dreamId : String) (m : AppModel) : AppModel :=
  let updatedDreams := m.allDreams.map (toggleEntry dreamId)
  { m with allDreams := updatedDreams, store := updatedDreams }

/-- App.tsx handleUpdateDream: every entry whose id matches the updated
entry is replaced by it; the store is rewritten wholesale. -/
def handleUpdateDream (updatedDream : DreamEntry) (m : AppModel) : AppModel :=
  let updatedDreams :=
    m.allDreams.map fun d => if d.id = updatedDream.id then updatedDream else d
  { m with currentDream := some updatedDream, allDreams := updatedDreams,
           store := updatedDreams }

/-- DreamAnalysis.tsx handleToggleFavorite builds this copy of the
viewed dream (favourite flag negated, every other field kept) and hands
it to onUpdateDream. -/
def favoriteToggledCopy (d : DreamEntry) : DreamEntry :=
  { d with isFavorite := !d.isFavorite }

/-- The comparator of App.tsx sortedDreams. time stands for the platform
computation new Date(s).getTime() on a stored date string. -/
def dreamCmp (time : String → Int) (a b : DreamEntry) : Int :=
  if a.isFavorite && !b.isFavorite then -1
  else if !a.isFavorite && b.isFavorite then 1
  else time b.date - time a.date

/-- App.tsx sortedDreams: a copy of the list sorted with dreamCmp. -/
def sortedDreams (time : String → Int) (dreams : List DreamEntry) :
    List DreamEntry :=
  dreams.mergeSort fun a b => decide (dreamCmp time a b ≤ 0)

/-- The ordering the history view is specified to present: a favourited
entry before a non-favourited one regardless of timestamps, and among
entries of equal favourite status the newer timestamp first. -/
def favThenNewest (time : String → Int) (a b : DreamEntry) : Prop :=
  (a.isFavorite = true ∧ b.isFavorite = false) ∨
    (a.isFavorite = b.isFavorite ∧ time b.date ≤ time a.date)

/-- Models storing an integer into an element of an Int16Array
(ECMAScript ToInt16): reduce modulo 2 to the 16, then pick the
representative in the signed 16-bit range. -/
def int16Store (n : Int) : Int :=
  let m := n % 65536
  if 32768 ≤ m then m - 65536 else m

/-- Models the ECMAScript number-to-integer step of the Int16Array
element write: truncation toward zero. Samples are modelled as exact
rationals; every floating-point value and every product arising in
createBlob is representable exactly, so the rational model is faithful. -/
def truncateToInt (q : ℚ) : Int := if 0 ≤ q then ⌊q⌋ else ⌈q⌉

/-- The per-sample conversion of DreamRecorder.tsx createBlob:
data[i] < 0 ? data[i] * 32768 : data[i] * 32767, stored into an
Int16Array element. -/
def convertSample (d : ℚ) : Int :=
  int16Store (truncateToInt (if d < 0 then d * 32768 else d * 32767))

/-- DreamRecorder.tsx createBlob restricted to its numeric content: the
Int16Array built from the floating-point buffer (the base64 envelope
around the bytes is external). -/
def createBlob (data : List ℚ) : List Int := data.map convertSample

/-- The alternative conversion the specification contrasts with the
code: clamp the sample into the unit interval before converting. -/
def clampedConvertSample (d : ℚ) : Int := convertSample (max (-1) (min 1 d))

/-- The DreamRecorder component state and resource references, made
explicit. Resource references are presence flags; audioContext is none
when the reference is null and some b otherwise, with b true when the
context state is closed. transcription models transcriptionRef. -/
structure RecorderState where
  isRecording : Bool
  audioLevel : ℚ
  finalTranscription : String
  interimTranscription : String
  transcription : String
  animFrame : Bool
  mediaStream : Bool
  scriptProcessor : Bool
  gainNode : Bool
  analyserNode : Bool
  audioContext : Option Bool
  session : Bool
deriving DecidableEq, Repr

/-- The release steps of DreamRecorder.tsx stopRecording, in source
order. -/
inductive StopStep where
  | cancelAnim
  | stopTracks
  | disconnectProcessor
  | disconnectGain
  | disconnectAnalyser
  | closeContext
  | closeSession
deriving DecidableEq, Repr

/-- The source order of the release steps in stopRecording. -/
def stopSteps : List StopStep :=
  [StopStep.cancelAnim, StopStep.stopTracks, StopStep.disconnectProcessor,
   StopStep.disconnectGain, StopStep.disconnectAnalyser,
   StopStep.closeContext, StopStep.closeSession]

/-- The null check guarding each release step: whether the resource the
step releases is currently held. closeContext additionally requires the
context not to be closed already, mirroring the state check in the
source. -/
def stepPresent (s : RecorderState) : StopStep → Bool
  | StopStep.cancelAnim => s.animFrame
  | StopStep.stopTracks => s.mediaStream
  | StopStep.disconnectProcessor => s.scriptProcessor
  | StopStep.disconnectGain => s.gainNode
  | StopStep.disconnectAnalyser => s.analyserNode
  | StopStep.closeContext =>
      match s.audioContext with
      | some closed => !closed
      | none => false
  | StopStep.closeSession => s.session

/-- The effect of a completed release step: the corresponding reference
is nulled. -/
def clearStep (s : RecorderState) : StopStep → RecorderState
  | StopStep.cancelAnim => { s with animFrame := false }
  | StopStep.stopTracks => { s with mediaStream := false }
  | StopStep.disconnectProcessor => { s with scriptProcessor := false }
  | StopStep.disconnectGain => { s with gainNode := false }
  | StopStep.disconnectAnalyser => { s with analyserNode := false }
  | StopStep.closeContext => { s with audioContext := none }
  | StopStep.closeSession => { s with session := false }

/-- Sequential execution of the release steps, as in the source: each
guarded by its null check, each completing before the next begins. fail
says which steps throw when executed; a throw propagates, so the state
keeps the reference of the failing step and the remaining steps are
skipped. Returns the final state, the steps that completed, and the
step that threw, if any. -/
def runSteps (fail : StopStep → Bool) :
    List StopStep → RecorderState → RecorderState × List StopStep × Option StopStep
  | [], s => (s, [], none)
  | step :: rest, s =>
    if stepPresent s step then
      if fail step then (s, [], some step)
      else
        let r := runSteps fail rest (clearStep s step)
        (r.1, step :: r.2.1, r.2.2)
    else runSteps fail rest s

/-- The observable outcome of one stopRecording call: the state it
leaves, the trace of release steps that completed, the transcript it
delivered through onRecordingComplete (none when it threw before the
callback), and the step that threw, if any. -/
structure StopResult where
  state : RecorderState
  trace : List StopStep
  delivered : Option String
  error : Option StopStep
deriving DecidableEq, Repr

/-- DreamRecorder.tsx stopRecording over a failure profile for its
release steps. When the recording-active flag is down the call returns
at once; otherwise the flag and the audio level are reset, the release
steps run in source order, and on completion the accumulated transcript
is delivered trimmed. -/
def stopRecording (fail : StopStep → Bool) (s : RecorderState) : StopResult :=
  if !s.isRecording then ⟨s, [], none, none⟩
  else
    let s₀ := { s with isRecording := false, audioLevel := 0 }
    let r := runSteps fail stopSteps s₀
    { state := r.1
      trace := r.2.1
      delivered :=
        match r.2.2 with
        | none => some (jsTrim r.1.transcription)
        | some _ => none
      error := r.2.2 }

/-- A transcription message from the live session, from the onmessage
callback in DreamRecorder.tsx: inputTranscription text together with the
isFinal flag. -/
inductive LiveMsg where
  | interim (text : String)
  | final (text : String)
deriving DecidableEq, Repr

/-- The onmessage handler of DreamRecorder.tsx: a final message appends
its text plus one space to the transcription ref, mirrors it into the
displayed final transcription, and clears the interim fragment; an
interim message replaces the interim fragment only. -/
def onmessage (s : RecorderState) : LiveMsg → RecorderState
  | LiveMsg.final t =>
      let tr := s.transcription ++ (t ++ " ")
      { s with transcription := tr, finalTranscription := tr,
               interimTranscription := "" }
  | LiveMsg.interim t => { s with interimTranscription := t }

/-- Delivery of a sequence of live-session messages in receipt order. -/
def processMessages (s : RecorderState) (msgs : List LiveMsg) : RecorderState :=
  msgs.foldl onmessage s

/-- The texts of the final messages of a sequence, in receipt order. -/
def finalTexts : List LiveMsg → List String
  | [] => []
  | LiveMsg.final t :: rest => t :: finalTexts rest
  | LiveMsg.interim _ :: rest => finalTexts rest

/-- Concatenation of fragments with one space appended to each, the
shape the accumulator of the onmessage handler builds. -/
def spaceConcat : List String → String
  | [] => ""
  | t :: rest => (t ++ " ") ++ spaceConcat rest

/-- A recorder state with an active recording and every resource held:
the state stopRecording sees after a full start. -/
def recActive : RecorderState :=
  { isRecording := true, audioLevel := 0, finalTranscription := "",
    interimTranscription := "", transcription := "", animFrame := true,
    mediaStream := true, scriptProcessor := true, gainNode := true,
    analyserNode := true, audioContext := some false, session := true }

/-- A recorder state before any start: nothing held, not recording. -/
def recIdle : RecorderState :=
  { isRecording := false, audioLevel := 0, finalTranscription := "",
    interimTranscription := "", transcription := "", animFrame := false,
    mediaStream := false, scriptProcessor := false, gainNode := false,
    analyserNode := false, audioContext := none, session := false }

/-- A failure profile for stopRecording in which stopping the media
tracks throws. -/
def failStopTracks : StopStep → Bool
  | StopStep.stopTracks => true
  | _ => false

/-- A concrete message sequence: two interim fragments each superseded
by a final fragment. -/
def msgsCE : List LiveMsg :=
  [LiveMsg.interim "a", LiveMsg.final "a", LiveMsg.interim "b", LiveMsg.final "b"]

lemma clearStep_isRecording (s : RecorderState) (st : StopStep) :
    (clearStep s st).isRecording = s.isRecording := by
  cases st <;> rfl

lemma clearStep_transcription (s : RecorderState) (st : StopStep) :
    (clearStep s st).transcription = s.transcription := by
  cases st <;> rfl

lemma runSteps_isRecording (fail : StopStep → Bool) :
    ∀ (steps : List StopStep) (s : RecorderState),
      (runSteps fail steps s).1.isRecording = s.isRecording := by
  intro steps
  induction steps with
  | nil => intro s; rfl
  | cons step rest ih =>
    intro s
    by_cases hp : stepPresent s step = true
    · by_cases hf : fail step = true
      · simp [runSteps, hp, hf]
      · simp [runSteps, hp, hf, ih, clearStep_isRecording]
    · simp [runSteps, hp, ih]

lemma runSteps_transcription (fail : StopStep → Bool) :
    ∀ (steps : List StopStep) (s : RecorderState),
      (runSteps fail steps s).1.transcription = s.transcription := by
  intro steps
  induction steps with
  | nil => intro s; rfl
  | cons step rest ih =>
    intro s
    by_cases hp : stepPresent s step = true
    · by_cases hf : fail step = true
      · simp [runSteps, hp, hf]
      · simp [runSteps, hp, hf, ih, clearStep_transcription]
    · simp [runSteps, hp, ih]

lemma runSteps_noFail_error :
    ∀ (steps : List StopStep) (s : RecorderState),
      (runSteps (fun _ => false) steps s).2.2 = none := by
  intro steps
  induction steps with
  | nil => intro s; rfl
  | cons step rest ih =>
    intro s
    by_cases hp : stepPresent s step = true
    · simp [runSteps, hp, ih]
    · simp [runSteps, hp, ih]

lemma stop_state_isRecording (fail : StopStep → Bool) (s : RecorderState) :
    (stopRecording fail s).state.isRecording = false := by
  by_cases h : s.isRecording = true
  · simp [stopRecording, h, runSteps_isRecording]
  · simp only [Bool.not_eq_true] at h
    simp [stopRecording, h]

lemma stopRecording_noFail_delivered (s : RecorderState)
    (h : s.isRecording = true) :
    (stopRecording (fun _ => false) s).delivered = some (jsTrim s.transcription) := by
  simp [stopRecording, h, runSteps_noFail_error, runSteps_transcription]

/-- C2: stopRecording is idempotent. In every state in which recording
is not active the call is a no-op that changes nothing, releases
nothing and throws nothing, whatever the failure profile of the release
steps; and immediately after any stop call (completed or thrown, on any
starting state) a second stop call releases no resource and throws
nothing, so resources are released at most once per recording
session. -/
theorem stopRecording_idempotent :
    (∀ (fail : StopStep → Bool) (s : RecorderState), s.isRecording = false →
        stopRecording fail s = ⟨s, [], none, none⟩) ∧
    (∀ (fail₁ fail₂ : StopStep → Bool) (s : RecorderState),
        (stopRecording fail₂ (stopRecording fail₁ s).state).trace = [] ∧
        (stopRecording fail₂ (stopRecording fail₁ s).state).error = none) := by
  constructor
  · intro fail s h
    simp [stopRecording, h]
  · intro fail₁ fail₂ s
    have h := stop_state_isRecording fail₁ s
    generalize hgen : (stopRecording fail₁ s).state = t
    rw [hgen] at h
    constructor <;> simp [stopRecording, h]

/-- Witness for C2: stop before any start is a no-op, and a second stop
right after a stop (even one whose media-track release threw) releases
nothing. -/
theorem stopRecording_idempotent_witness :
    stopRecording (fun _ => false) recIdle = ⟨recIdle, [], none, none⟩ ∧
    (stopRecording (fun _ => false) (stopRecording failStopTracks recActive).state).trace = [] :=
  ⟨stopRecording_idempotent.1 (fun _ => false) recIdle rfl,
   (stopRecording_idempotent.2 failStopTracks (fun _ => false) recActive).1⟩

lemma stop_noFail_clears (s : RecorderState) (h : s.isRecording = true)
    (st : StopStep) :
    stepPresent (stopRecording (fun _ => false) s).state st = false := by
  obtain ⟨rec, al, ft, it, tr, af, ms, sp, gn, an, ctx, ss⟩ := s
  replace h : rec = true := h
  subst h
  cases af <;> cases ms <;> cases sp <;> cases gn <;> cases an <;> cases ss <;>
    rcases ctx with _ | (_ | _) <;> cases st <;> rfl

lemma stop_noFail_trace_filter (s : RecorderState) (h : s.isRecording = true) :
    (stopRecording (fun _ => false) s).trace = stopSteps.filter (stepPresent s) := by
  obtain ⟨rec, al, ft, it, tr, af, ms, sp, gn, an, ctx, ss⟩ := s
  replace h : rec = true := h
  subst h
  cases af <;> cases ms <;> cases sp <;> cases gn <;> cases an <;> cases ss <;>
    rcases ctx with _ | (_ | _) <;> rfl

/-- C8: on an active recording session the release steps of stop run
sequentially in the fixed source order, the five steps the
specification names appearing in exactly that relative order; any step
whose resource reference is already null is skipped rather than
failing, so the trace is the presence-filtered step order; on a fully
resourced session every step runs. -/
theorem stopRecording_release_order :
    (∀ s : RecorderState, s.isRecording = true →
        (stopRecording (fun _ => false) s).trace = stopSteps.filter (stepPresent s)) ∧
    (stopRecording (fun _ => false) recActive).trace = stopSteps ∧
    [StopStep.cancelAnim, StopStep.stopTracks, StopStep.disconnectProcessor,
     StopStep.closeContext, StopStep.closeSession].Sublist stopSteps := by
  refine ⟨fun s h => stop_noFail_trace_filter s h, rfl, ?_⟩
  decide

/-- Witness for C8: the trace of a stop on the fully resourced active
session is the presence-filtered source order. -/
theorem stopRecording_release_order_witness :
    (stopRecording (fun _ => false) recActive).trace =
      stopSteps.filter (stepPresent recActive) :=
  stopRecording_release_order.1 recActive rfl

/-- C4 counterexample: the claim that stop attempts every release even
when an earlier release step fails, and always resolves with the
accumulated transcript, is false of the code. When stopping the media
tracks throws, stop delivers no transcript, reports the thrown step,
and leaves the processing node (and everything after it) unreleased:
only the animation-frame cancellation ran. -/
theorem stop_attemptsAll_counterexample :
    (stopRecording failStopTracks recActive).delivered = none ∧
    (stopRecording failStopTracks recActive).error = some StopStep.stopTracks ∧
    stepPresent (stopRecording failStopTracks recActive).state
      StopStep.disconnectProcessor = true ∧
    (stopRecording failStopTracks recActive).trace = [StopStep.cancelAnim] :=
  ⟨rfl, rfl, rfl, rfl⟩

/-- C4 amended: when no release step fails, stop on an active session
releases every acquired resource and resolves by delivering the
accumulated transcript, trimmed, possibly empty; a failing step
propagates, skipping the remaining releases and the delivery. -/
theorem stopRecording_noFailure_releasesAll :
    ∀ s : RecorderState, s.isRecording = true →
      (stopRecording (fun _ => false) s).error = none ∧
      (stopRecording (fun _ => false) s).delivered = some (jsTrim s.transcription) ∧
      ∀ st : StopStep, stepPresent (stopRecording (fun _ => false) s).state st = false := by
  intro s h
  refine ⟨?_, stopRecording_noFail_delivered s h, fun st => stop_noFail_clears s h st⟩
  simp [stopRecording, h, runSteps_noFail_error]

/-- Witness for C4 amended: a failure-free stop on the fully resourced
active session with an accumulated transcript delivers it trimmed and
leaves no resource held. -/
theorem stopRecording_noFailure_releasesAll_witness :
    (stopRecording (fun _ => false)
        { recActive with transcription := " hello " }).delivered = some "hello" ∧
    stepPresent (stopRecording (fun _ => false)
        { recActive with transcription := " hello " }).state StopStep.closeSession = false := by
  have h := stopRecording_noFailure_releasesAll
    { recActive with transcription := " hello " } rfl
  exact ⟨by rw [h.2.1]; rfl, h.2.2 StopStep.closeSession⟩

lemma processMessages_transcription :
    ∀ (msgs : List LiveMsg) (s : RecorderState),
      (processMessages s msgs).transcription =
        s.transcription ++ spaceConcat (finalTexts msgs) := by
  intro msgs
  induction msgs with
  | nil =>
    intro s
    show s.transcription = s.transcription ++ ""
    rw [String.append_empty]
  | cons msg rest ih =>
    intro s
    cases msg with
    | interim t =>
      show (processMessages ({ s with interimTranscription := t }) rest).transcription = _
      rw [ih]
      rfl
    | final t =>
      show (processMessages (onmessage s (LiveMsg.final t)) rest).transcription = _
      rw [ih]
      show (s.transcription ++ (t ++ " ")) ++ spaceConcat (finalTexts rest) =
        s.transcription ++ ((t ++ " ") ++ spaceConcat (finalTexts rest))
      rw [String.append_assoc]

lemma processMessages_append (s : RecorderState) (xs ys : List LiveMsg) :
    processMessages s (xs ++ ys) = processMessages (processMessages s xs) ys := by
  simp [processMessages, List.foldl_append]

/-- C3 counterexample: the claim that the committed transcript equals
the plain concatenation of the final fragments, trimmed, is false of
the code: the handler appends one space after every final fragment, so
the finals a and b commit as the transcript a b, not ab. -/
theorem transcript_concatenation_counterexample :
    (stopRecording (fun _ => false) (processMessages recActive msgsCE)).delivered =
      some "a b" ∧
    jsTrim (String.join (finalTexts msgsCE)) = "ab" ∧
    (stopRecording (fun _ => false) (processMessages recActive msgsCE)).delivered ≠
      some (jsTrim (String.join (finalTexts msgsCE))) := by
  refine ⟨?_, ?_, ?_⟩ <;> decide

/-- C3 amended: for every message sequence, each interim message only
replaces the pending interim fragment and each final message appends
its text plus one space to the accumulator and clears the interim
fragment; the committed transcript stop delivers is the space-separated
concatenation of the final fragments in receipt order, trimmed of
leading and trailing whitespace, with no residual interim text. -/
theorem transcript_accumulation :
    ∀ (msgs : List LiveMsg) (s : RecorderState), s.transcription = "" →
      (processMessages s msgs).transcription = spaceConcat (finalTexts msgs) ∧
      (∀ (pre : List LiveMsg) (t : String), msgs = pre ++ [LiveMsg.final t] →
          (processMessages s msgs).interimTranscription = "") ∧
      ((processMessages s msgs).isRecording = true →
        (stopRecording (fun _ => false) (processMessages s msgs)).delivered =
          some (jsTrim (spaceConcat (finalTexts msgs)))) := by
  intro msgs s h
  have htr : (processMessages s msgs).transcription = spaceConcat (finalTexts msgs) := by
    rw [processMessages_transcription, h]
    show "" ++ spaceConcat (finalTexts msgs) = spaceConcat (finalTexts msgs)
    rw [String.empty_append]
  refine ⟨htr, ?_, ?_⟩
  · intro pre t hmeq
    subst hmeq
    rw [processMessages_append]
    rfl
  · intro hrec
    rw [stopRecording_noFail_delivered _ hrec, htr]

/-- Witness for C3 amended: delivering two finals with interleaved
interims commits exactly the trimmed space-separated concatenation. -/
theorem transcript_accumulation_witness :
    (processMessages recActive msgsCE).transcription =
      spaceConcat (finalTexts msgsCE) ∧
    (stopRecording (fun _ => false) (processMessages recActive msgsCE)).delivered =
      some (jsTrim (spaceConcat (finalTexts msgsCE))) := by
  have h := transcript_accumulation msgsCE recActive rfl
  exact ⟨h.1, h.2.2 rfl⟩

lemma dreamCmp_le_trans (time : String → Int) (a b c : DreamEntry)
    (hab : dreamCmp time a b ≤ 0) (hbc : dreamCmp time b c ≤ 0) :
    dreamCmp time a c ≤ 0 := by
  unfold dreamCmp at hab hbc ⊢
  cases ha : a.isFavorite <;> cases hb : b.isFavorite <;> cases hc : c.isFavorite <;>
    simp [ha, hb, hc] at hab hbc ⊢ <;> omega

lemma dreamCmp_le_total (time : String → Int) (a b : DreamEntry) :
    dreamCmp time a b ≤ 0 ∨ dreamCmp time b a ≤ 0 := by
  unfold dreamCmp
  cases ha : a.isFavorite <;> cases hb : b.isFavorite <;> simp [ha, hb] <;> omega

lemma dreamCmp_le_favThenNewest (time : String → Int) (a b : DreamEntry)
    (h : dreamCmp time a b ≤ 0) : favThenNewest time a b := by
  unfold dreamCmp at h
  unfold favThenNewest
  cases ha : a.isFavorite <;> cases hb : b.isFavorite <;> simp [ha, hb] at h ⊢ <;> omega

/-- C5: the history view is a permutation of the dream list in which
every favourited entry precedes every non-favourited entry regardless
of timestamps, and entries of equal favourite status are ordered with
the newer timestamp first, whatever the timestamp interpretation of the
stored date strings. -/
theorem sortedDreams_spec :
    ∀ (time : String → Int) (dreams : List DreamEntry),
      (sortedDreams time dreams).Perm dreams ∧
      (sortedDreams time dreams).Pairwise (favThenNewest time) := by
  intro time dreams
  constructor
  · exact List.mergeSort_perm dreams _
  · have htrans : ∀ a b c : DreamEntry,
        decide (dreamCmp time a b ≤ 0) = true →
        decide (dreamCmp time b c ≤ 0) = true →
        decide (dreamCmp time a c ≤ 0) = true := by
      intro a b c h₁ h₂
      rw [decide_eq_true_iff] at h₁ h₂ ⊢
      exact dreamCmp_le_trans time a b c h₁ h₂
    have htotal : ∀ a b : DreamEntry,
        (decide (dreamCmp time a b ≤ 0) || decide (dreamCmp time b a ≤ 0)) = true := by
      intro a b
      rcases dreamCmp_le_total time a b with h | h <;> simp [h]
    have hp := List.sorted_mergeSort htrans htotal dreams
    exact hp.imp fun h => dreamCmp_le_favThenNewest time _ _ (by simpa using h)

/-- C1: a DreamEntry is persisted atomically. When both the image
request and the interpretation request succeed, exactly the one
complete new entry is prepended to the stored list and to the in-memory
list; when either fails, the stored list and the in-memory list are
unchanged, no entry (partial or whole) is created, and the attempt is
reported as failed to the caller. -/
theorem dreamEntry_atomicity :
    ∀ (m : AppModel) (t newId newDate : String)
      (imgRes interpRes : Except String String),
      jsTrim t ≠ "" →
      (∀ imageUrl interpretation,
        imgRes = Except.ok imageUrl → interpRes = Except.ok interpretation →
          (handleRecordingComplete t (generateDreamAnalysis imgRes interpRes)
              newId newDate m).1.store =
            DreamEntry.mk newId newDate t imageUrl interpretation false :: m.store ∧
          (handleRecordingComplete t (generateDreamAnalysis imgRes interpRes)
              newId newDate m).1.allDreams =
            DreamEntry.mk newId newDate t imageUrl interpretation false :: m.allDreams) ∧
      ((imgRes.isOk = false ∨ interpRes.isOk = false) →
          (handleRecordingComplete t (generateDreamAnalysis imgRes interpRes)
              newId newDate m).1.store = m.store ∧
          (handleRecordingComplete t (generateDreamAnalysis imgRes interpRes)
              newId newDate m).1.allDreams = m.allDreams ∧
          (handleRecordingComplete t (generateDreamAnalysis imgRes interpRes)
              newId newDate m).1.currentDream = m.currentDream ∧
          (handleRecordingComplete t (generateDreamAnalysis imgRes interpRes)
              newId newDate m).1.appState = AppState.IDLE ∧
          (handleRecordingComplete t (generateDreamAnalysis imgRes interpRes)
              newId newDate m).1.error.isSome = true) := by
  intro m t newId newDate imgRes interpRes ht
  constructor
  · intro imageUrl interpretation h₁ h₂
    subst h₁
    subst h₂
    constructor <;>
      simp [handleRecordingComplete, generateDreamAnalysis, saveNewDream, ht]
  · intro hfail
    cases imgRes <;> cases interpRes <;>
      simp [Except.isOk, Except.toBool] at hfail ⊢ <;>
      simp [handleRecordingComplete, generateDreamAnalysis, ht]

/-- Witness for C1: on a failed image request with a successful
interpretation request, nothing is stored and the attempt is reported
as failed. -/
theorem dreamEntry_atomicity_witness :
    (handleRecordingComplete "I dreamed of whales"
        (generateDreamAnalysis (Except.error "boom") (Except.ok "interp"))
        "1" "2024-01-01" (AppModel.mk AppState.ANALYZING none [] none [])).1.store = [] ∧
    (handleRecordingComplete "I dreamed of whales"
        (generateDreamAnalysis (Except.error "boom") (Except.ok "interp"))
        "1" "2024-01-01" (AppModel.mk AppState.ANALYZING none [] none [])).1.appState =
      AppState.IDLE := by
  have h := (dreamEntry_atomicity (AppModel.mk AppState.ANALYZING none [] none [])
    "I dreamed of whales" "1" "2024-01-01" (Except.error "boom") (Except.ok "interp")
    (by decide)).2 (Or.inl rfl)
  exact ⟨h.1, h.2.2.2.1⟩

/-- C9: when the delivered transcript is empty or whitespace-only,
handleRecordingComplete creates no entry, touches neither the in-memory
list nor the store, requests no interpretation or image generation,
sets the user-facing error message, and returns the application to the
idle state. -/
theorem emptyTranscript_noRequest :
    ∀ (m : AppModel) (t newId newDate : String)
      (analysis : Except String (String × String)),
      jsTrim t = "" →
      handleRecordingComplete t analysis newId newDate m =
        ({ m with error := some "The recording was empty. Please try again.",
                  appState := AppState.IDLE }, false) := by
  intro m t newId newDate analysis h
  simp [handleRecordingComplete, h]

/-- Witness for C9: a whitespace-only transcript leaves the dream lists
alone and reports the empty-recording error from the idle state. -/
theorem emptyTranscript_noRequest_witness :
    handleRecordingComplete "   " (Except.ok ("img", "interp")) "1" "2024-01-01"
        (AppModel.mk AppState.ANALYZING none [] none []) =
      (AppModel.mk AppState.IDLE none []
        (some "The recording was empty. Please try again.") [], false) :=
  emptyTranscript_noRequest (AppModel.mk AppState.ANALYZING none [] none [])
    "   " "1" "2024-01-01" (Except.ok ("img", "interp")) (by decide)

/-- C6: reading the persisted history never throws. A missing key, an
empty blob, or a blob on which parsing throws all read as the empty
list, and a corrupt blob is discarded from storage; only a successfully
parsed blob reads as its content. -/
theorem getSavedDreams_fallback :
    ∀ (parse : String → Option (List DreamEntry)) (stored : Option String),
      (stored = none → getSavedDreams parse stored = ([], none)) ∧
      (stored = some "" → getSavedDreams parse stored = ([], some "")) ∧
      (∀ s, stored = some s → s ≠ "" → parse s = none →
          getSavedDreams parse stored = ([], none)) ∧
      (∀ s dreams, stored = some s → s ≠ "" → parse s = some dreams →
          getSavedDreams parse stored = (dreams, some s)) := by
  intro parse stored
  refine ⟨?_, ?_, ?_, ?_⟩
  · intro h; subst h; rfl
  · intro h; subst h; rfl
  · intro s h hs hp
    subst h
    simp [getSavedDreams, hs, hp]
  · intro s dreams h hs hp
    subst h
    simp [getSavedDreams, hs, hp]

/-- Witness for C6: a blob the parser rejects reads as the empty
history and is removed from storage. -/
theorem getSavedDreams_fallback_witness :
    getSavedDreams (fun _ => none) (some "corrupt blob") = ([], none) :=
  (getSavedDreams_fallback (fun _ => none) (some "corrupt blob")).2.2.1
    "corrupt blob" rfl (by decide) rfl

/-- C10: toggling the favourite flag is frame-preserving. The
journal-screen toggle maps every list position through toggleEntry,
which negates exactly the favourite flag of entries carrying the given
id and returns every other entry unchanged; every other field of a
toggled entry is preserved; the persisted store receives exactly the
updated in-memory list, and no other component field changes. The
viewer-screen toggle hands handleUpdateDream the favourite-negated copy
of the viewed entry, which replaces exactly the positions holding that
entry and leaves entries with other ids untouched, again rewriting the
store wholesale. -/
theorem toggleFavorite_frame :
    ∀ (m : AppModel) (dreamId : String),
      (∀ i : Nat, (handleToggleFavorite dreamId m).allDreams[i]? =
          (m.allDreams[i]?).map (toggleEntry dreamId)) ∧
      (handleToggleFavorite dreamId m).store = (handleToggleFavorite dreamId m).allDreams ∧
      (handleToggleFavorite dreamId m).appState = m.appState ∧
      (handleToggleFavorite dreamId m).currentDream = m.currentDream ∧
      (handleToggleFavorite dreamId m).error = m.error ∧
      (∀ d : DreamEntry, d.id ≠ dreamId → toggleEntry dreamId d = d) ∧
      (∀ d : DreamEntry, d.id = dreamId → toggleEntry dreamId d = favoriteToggledCopy d) ∧
      (∀ d : DreamEntry,
          (favoriteToggledCopy d).id = d.id ∧
          (favoriteToggledCopy d).date = d.date ∧
          (favoriteToggledCopy d).transcription = d.transcription ∧
          (favoriteToggledCopy d).imageUrl = d.imageUrl ∧
          (favoriteToggledCopy d).interpretation = d.interpretation ∧
          (favoriteToggledCopy d).isFavorite = !d.isFavorite) ∧
      (∀ (d x : DreamEntry) (i : Nat), m.allDreams[i]? = some x → x.id ≠ d.id →
          (handleUpdateDream (favoriteToggledCopy d) m).allDreams[i]? = some x) ∧
      (∀ (d x : DreamEntry) (i : Nat), m.allDreams[i]? = some x → x = d →
          (handleUpdateDream (favoriteToggledCopy d) m).allDreams[i]? =
            some (favoriteToggledCopy d)) ∧
      (∀ d : DreamEntry, (handleUpdateDream (favoriteToggledCopy d) m).store =
          (handleUpdateDream (favoriteToggledCopy d) m).allDreams) := by
  intro m dreamId
  refine ⟨?_, rfl, rfl, rfl, rfl, ?_, ?_, ?_, ?_, ?_, fun d => rfl⟩
  · intro i
    simp [handleToggleFavorite, List.getElem?_map]
  · intro d h
    simp [toggleEntry, h]
  · intro d h
    simp [toggleEntry, favoriteToggledCopy, h]
  · intro d
    exact ⟨rfl, rfl, rfl, rfl, rfl, rfl⟩
  · intro d x i hx hne
    simp [handleUpdateDream, List.getElem?_map, hx, favoriteToggledCopy, hne]
  · intro d x i hx heq
    subst heq
    simp [handleUpdateDream, List.getElem?_map, hx, favoriteToggledCopy]

/-- Witness for C10: on a two-entry journal, toggling the second id
flips only that favourite flag, keeps the first entry identical and
persists the updated list; the viewer-screen path produces the same
replacement at the matching position. -/
theorem toggleFavorite_frame_witness :
    (handleToggleFavorite "2"
        (AppModel.mk AppState.IDLE none
          [DreamEntry.mk "1" "d1" "t1" "u1" "i1" false,
           DreamEntry.mk "2" "d2" "t2" "u2" "i2" false] none
          [DreamEntry.mk "1" "d1" "t1" "u1" "i1" false,
           DreamEntry.mk "2" "d2" "t2" "u2" "i2" false])).allDreams[0]? =
      some (DreamEntry.mk "1" "d1" "t1" "u1" "i1" false) ∧
    (handleUpdateDream (favoriteToggledCopy (DreamEntry.mk "2" "d2" "t2" "u2" "i2" false))
        (AppModel.mk AppState.IDLE none
          [DreamEntry.mk "1" "d1" "t1" "u1" "i1" false,
           DreamEntry.mk "2" "d2" "t2" "u2" "i2" false] none
          [DreamEntry.mk "1" "d1" "t1" "u1" "i1" false,
           DreamEntry.mk "2" "d2" "t2" "u2" "i2" false])).allDreams[1]? =
      some (favoriteToggledCopy (DreamEntry.mk "2" "d2" "t2" "u2" "i2" false)) := by
  have h := toggleFavorite_frame
    (AppModel.mk AppState.IDLE none
      [DreamEntry.mk "1" "d1" "t1" "u1" "i1" false,
       DreamEntry.mk "2" "d2" "t2" "u2" "i2" false] none
      [DreamEntry.mk "1" "d1" "t1" "u1" "i1" false,
       DreamEntry.mk "2" "d2" "t2" "u2" "i2" false]) "2"
  constructor
  · rw [h.1 0]
    have hne := h.2.2.2.2.2.1 (DreamEntry.mk "1" "d1" "t1" "u1" "i1" false) (by decide)
    simp [hne]
  · exact h.2.2.2.2.2.2.2.2.2.1 (DreamEntry.mk "2" "d2" "t2" "u2" "i2" false)
      (DreamEntry.mk "2" "d2" "t2" "u2" "i2" false) 1 rfl rfl

lemma truncateToInt_intCast (n : ℤ) : truncateToInt (n : ℚ) = n := by
  unfold truncateToInt
  by_cases h : 0 ≤ (n : ℚ)
  · rw [if_pos h, Int.floor_intCast]
  · rw [if_neg h, Int.ceil_intCast]

lemma convertSample_two : convertSample 2 = -2 := by
  unfold convertSample
  rw [if_neg (by norm_num : ¬ (2 : ℚ) < 0)]
  rw [(by norm_num : (2 : ℚ) * 32767 = ((65534 : ℤ) : ℚ)), truncateToInt_intCast]
  decide

lemma convertSample_negTwo : convertSample (-2) = 0 := by
  unfold convertSample
  rw [if_pos (by norm_num : (-2 : ℚ) < 0)]
  rw [(by norm_num : (-2 : ℚ) * 32768 = ((-65536 : ℤ) : ℚ)), truncateToInt_intCast]
  decide

lemma convertSample_one : convertSample 1 = 32767 := by
  unfold convertSample
  rw [if_neg (by norm_num : ¬ (1 : ℚ) < 0)]
  rw [(by norm_num : (1 : ℚ) * 32767 = ((32767 : ℤ) : ℚ)), truncateToInt_intCast]
  decide

lemma convertSample_negOne : convertSample (-1) = -32768 := by
  unfold convertSample
  rw [if_pos (by norm_num : (-1 : ℚ) < 0)]
  rw [(by norm_num : (-1 : ℚ) * 32768 = ((-32768 : ℤ) : ℚ)), truncateToInt_intCast]
  decide

/-- C7: the buffer conversion multiplies a negative sample by 32768 and
a non-negative one by 32767 and stores the truncation into a 16-bit
element with no clamping: on samples inside the unit interval the
conversion coincides with its clamped variant, while the out-of-range
samples 2 and -2 wrap per two's-complement storage to -2 and 0 instead
of saturating at the 32767 and -32768 the clamped variant produces. -/
theorem createBlob_unclamped :
    (∀ q : ℚ, -1 ≤ q → q ≤ 1 → convertSample q = clampedConvertSample q) ∧
    createBlob [2, -2] = [-2, 0] ∧
    clampedConvertSample 2 = 32767 ∧
    clampedConvertSample (-2) = -32768 := by
  refine ⟨?_, ?_, ?_, ?_⟩
  · intro q h₁ h₂
    unfold clampedConvertSample
    rw [min_eq_right h₂, max_eq_right h₁]
  · show [convertSample 2, convertSample (-2)] = [-2, 0]
    rw [convertSample_two, convertSample_negTwo]
  · unfold clampedConvertSample
    rw [(by norm_num : min (1 : ℚ) 2 = 1), (by norm_num : max (-1 : ℚ) 1 = 1)]
    exact convertSample_one
  · unfold clampedConvertSample
    rw [(by norm_num : min (1 : ℚ) (-2) = -2), (by norm_num : max (-1 : ℚ) (-2) = -1)]
    exact convertSample_negOne

/-- Witness for C7: at the in-range sample 0 the conversion agrees with
its clamped variant. -/
theorem createBlob_unclamped_witness :
    convertSample 0 = clampedConvertSample 0 :=
  createBlob_unclamped.1 0 (by decide) (by decide)

end LucidAI
